import Mathlib

/-!
Verification of the streaming voice pipeline in
`skills/voice-ai-tutor/scripts/voice_pipeline.py`.

Python strings are modelled as `List Char` (`PyStr`); audio byte blobs as
`List Nat`.  Wall-clock timestamps (`time.time()`) are modelled as a strictly
increasing tick counter starting at 1, so the Python idiom "a timestamp field
equal to 0 is unset/falsy" carries over exactly.
-/

/-- Python strings, modelled as lists of characters. -/
abbrev PyStr := List Char

/-- Whitespace as recognised by Python `str.strip()` (ASCII part: space, tab,
linefeed, vertical tab, formfeed, carriage return).  Non-ASCII Unicode
whitespace is not modelled; no input in this development contains any. -/
def pyIsSpace (c : Char) : Bool :=
  c.toNat = 32 || c.toNat = 9 || c.toNat = 10 || c.toNat = 11 ||
  c.toNat = 12 || c.toNat = 13

/-- Python `str.strip()`: remove leading and trailing whitespace. -/
def pyStrip (s : PyStr) : PyStr :=
  ((s.dropWhile pyIsSpace).reverse.dropWhile pyIsSpace).reverse

/-- Python `chunk.endswith((".", "!", "?"))`: the last character of the
just-appended increment is a sentence terminator (false on the empty string). -/
def endsTerm (inc : PyStr) : Bool :=
  match inc.getLast? with
  | some c => c == '.' || c == '!' || c == '?'
  | none => false

/-- The emission condition of the streaming loop
(`len(current_text) >= chunk_size or chunk.endswith((".", "!", "?"))`),
checked after the increment `inc` has been appended, giving buffer `buf`. -/
def chunkTrigger (T : Nat) (buf inc : PyStr) : Bool :=
  decide (T ≤ buf.length) || endsTerm inc

/-- State of the inline chunker of `voice_pipeline_streaming`
(lines 363-391): the accumulation buffer and the texts emitted so far
(`current_text.strip()` at each emission; list position = sequence number). -/
structure ChunkState where
  buffer : PyStr
  chunks : List PyStr
deriving DecidableEq

/-- One iteration of the streaming loop, restricted to its chunking effect:
append the increment to the buffer; if the threshold is reached or the
increment ends with a sentence terminator, emit the stripped buffer (when
non-empty after stripping) and reset the buffer. -/
def chunkStep (T : Nat) (st : ChunkState) (inc : PyStr) : ChunkState :=
  let buf := st.buffer ++ inc
  if chunkTrigger T buf inc then
    if pyStrip buf = [] then { buffer := buf, chunks := st.chunks }
    else { buffer := [], chunks := st.chunks ++ [pyStrip buf] }
  else { buffer := buf, chunks := st.chunks }

/-- Run the chunking loop over a whole (finite) increment stream. -/
def chunkFold (T : Nat) (incs : List PyStr) : ChunkState :=
  incs.foldl (chunkStep T) { buffer := [], chunks := [] }

/-- All chunk texts emitted for a stream, including the final flush
(`if buffer: remaining = "".join(buffer).strip(); if remaining: ...`,
lines 383-391). -/
def chunkAll (T : Nat) (incs : List PyStr) : List PyStr :=
  let st := chunkFold T incs
  if pyStrip st.buffer = [] then st.chunks else st.chunks ++ [pyStrip st.buffer]

/-- Ghost-instrumented chunker state: `segs` additionally records the raw
(unstripped) buffer content at each emission.  `buffer` and `chunks` evolve
exactly as in `ChunkState`. -/
structure ChunkStateR where
  buffer : PyStr
  chunks : List PyStr
  segs : List PyStr
deriving DecidableEq

/-- `chunkStep` with the ghost `segs` field. -/
def chunkStepR (T : Nat) (st : ChunkStateR) (inc : PyStr) : ChunkStateR :=
  let buf := st.buffer ++ inc
  if chunkTrigger T buf inc then
    if pyStrip buf = [] then { buffer := buf, chunks := st.chunks, segs := st.segs }
    else { buffer := [], chunks := st.chunks ++ [pyStrip buf], segs := st.segs ++ [buf] }
  else { buffer := buf, chunks := st.chunks, segs := st.segs }

/-- Ghost run of the chunker. -/
def chunkFoldR (T : Nat) (incs : List PyStr) : ChunkStateR :=
  incs.foldl (chunkStepR T) { buffer := [], chunks := [], segs := [] }

/-- The raw buffer segment consumed by each emission, plus the final
(possibly whitespace-only, possibly unemitted) remainder. -/
def chunkSegs (T : Nat) (incs : List PyStr) : List PyStr :=
  (chunkFoldR T incs).segs ++ [(chunkFoldR T incs).buffer]

/-- Length of the longest increment in a stream (0 for the empty stream). -/
def maxIncLen (incs : List PyStr) : Nat :=
  incs.foldr (fun i n => max i.length n) 0

/-- `VoicePipelineMetrics` (lines 53-65): nine timestamp fields, all
initialised to 0 (= unset).  `clock` is the model of `time.time()`: a strictly
positive, strictly increasing tick handed out at each recording. -/
structure VoicePipelineMetrics where
  sttStart : Nat
  sttEnd : Nat
  ragStart : Nat
  ragEnd : Nat
  llmStart : Nat
  llmFirstToken : Nat
  llmEnd : Nat
  ttsStart : Nat
  ttsEnd : Nat
  clock : Nat
deriving DecidableEq

/-- Fresh metrics object (`VoicePipelineMetrics.__init__`). -/
def VoicePipelineMetrics.init : VoicePipelineMetrics :=
  { sttStart := 0, sttEnd := 0, ragStart := 0, ragEnd := 0, llmStart := 0,
    llmFirstToken := 0, llmEnd := 0, ttsStart := 0, ttsEnd := 0, clock := 1 }

/-- `metrics.stt_start = time.time()`. -/
def VoicePipelineMetrics.recordSttStart (m : VoicePipelineMetrics) : VoicePipelineMetrics :=
  { m with sttStart := m.clock, clock := m.clock + 1 }

/-- `metrics.stt_end = time.time()`. -/
def VoicePipelineMetrics.recordSttEnd (m : VoicePipelineMetrics) : VoicePipelineMetrics :=
  { m with sttEnd := m.clock, clock := m.clock + 1 }

/-- `metrics.rag_start = time.time()`. -/
def VoicePipelineMetrics.recordRagStart (m : VoicePipelineMetrics) : VoicePipelineMetrics :=
  { m with ragStart := m.clock, clock := m.clock + 1 }

/-- `metrics.rag_end = time.time()`. -/
def VoicePipelineMetrics.recordRagEnd (m : VoicePipelineMetrics) : VoicePipelineMetrics :=
  { m with ragEnd := m.clock, clock := m.clock + 1 }

/-- `metrics.llm_start = time.time()`. -/
def VoicePipelineMetrics.recordLlmStart (m : VoicePipelineMetrics) : VoicePipelineMetrics :=
  { m with llmStart := m.clock, clock := m.clock + 1 }

/-- `metrics.llm_first_token = time.time()`. -/
def VoicePipelineMetrics.recordLlmFirstToken (m : VoicePipelineMetrics) : VoicePipelineMetrics :=
  { m with llmFirstToken := m.clock, clock := m.clock + 1 }

/-- `metrics.llm_end = time.time()`. -/
def VoicePipelineMetrics.recordLlmEnd (m : VoicePipelineMetrics) : VoicePipelineMetrics :=
  { m with llmEnd := m.clock, clock := m.clock + 1 }

/-- `metrics.tts_start = time.time()`. -/
def VoicePipelineMetrics.recordTtsStart (m : VoicePipelineMetrics) : VoicePipelineMetrics :=
  { m with ttsStart := m.clock, clock := m.clock + 1 }

/-- `metrics.tts_end = time.time()`. -/
def VoicePipelineMetrics.recordTtsEnd (m : VoicePipelineMetrics) : VoicePipelineMetrics :=
  { m with ttsEnd := m.clock, clock := m.clock + 1 }

/-- The dictionary returned by `VoicePipelineMetrics.report` (lines 67-76).
Durations are in "milliseconds" of the tick clock.  Each entry is guarded by
the truthiness (`≠ 0`) of the timestamps the Python code tests. -/
structure LatencyReport where
  sttLatencyMs : Int
  ragLatencyMs : Int
  llmFirstTokenMs : Int
  llmTotalMs : Int
  ttsLatencyMs : Int
  totalLatencyMs : Int
deriving DecidableEq

/-- `VoicePipelineMetrics.report` (lines 67-76), field by field. -/
def VoicePipelineMetrics.report (m : VoicePipelineMetrics) : LatencyReport :=
  { sttLatencyMs := if m.sttEnd ≠ 0 then ((m.sttEnd : Int) - m.sttStart) * 1000 else 0,
    ragLatencyMs := if m.ragEnd ≠ 0 then ((m.ragEnd : Int) - m.ragStart) * 1000 else 0,
    llmFirstTokenMs :=
      if m.llmFirstToken ≠ 0 then ((m.llmFirstToken : Int) - m.llmStart) * 1000 else 0,
    llmTotalMs := if m.llmEnd ≠ 0 then ((m.llmEnd : Int) - m.llmStart) * 1000 else 0,
    ttsLatencyMs := if m.ttsEnd ≠ 0 then ((m.ttsEnd : Int) - m.ttsStart) * 1000 else 0,
    totalLatencyMs :=
      if m.ttsEnd ≠ 0 ∧ m.sttStart ≠ 0 then ((m.ttsEnd : Int) - m.sttStart) * 1000 else 0 }

/-- Python exceptions that can escape the pipeline functions. -/
inductive PyErr where
  | valueErrorNoOpenAIKey : PyErr
  | valueErrorNoAnthropicKey : PyErr
  | providerError : Nat → PyErr
deriving DecidableEq

/-- The transcription result dictionary built by `transcribe_audio`
(lines 133-137). -/
structure Transcript where
  text : PyStr
  language : PyStr
  duration : Nat
deriving DecidableEq

/-- The external world one pipeline run interacts with: which credentials are
set, and the outcomes the three network providers would return.  `stt` is the
combined outcome of reading the audio file and the Whisper call; `increments`
is the sequence of text fragments a successful Claude stream yields (a
mid-stream generation failure is not modelled — no claim depends on it);
`tts` maps a synthesis text to the ElevenLabs outcome (audio bytes or a
raised provider error). -/
structure Env where
  openaiKey : Bool
  anthropicKey : Bool
  elevenKey : Bool
  stt : Except PyErr Transcript
  increments : List PyStr
  tts : PyStr → Except Nat (List Nat)

/-- `transcribe_audio` (lines 91-142): record `stt_start`, raise `ValueError`
if `OPENAI_API_KEY` is unset, otherwise perform the provider call (whose
outcome, including file errors, is `env.stt`) and record `stt_end` on
success.  A raised exception carries the metrics object state at raise time
(ghost observability of the local object). -/
def transcribe_audio (env : Env) (m : VoicePipelineMetrics) :
    Except (PyErr × VoicePipelineMetrics) (Transcript × VoicePipelineMetrics) :=
  let m := m.recordSttStart
  if env.openaiKey = false then .error (.valueErrorNoOpenAIKey, m)
  else
    match env.stt with
    | .error e => .error (e, m)
    | .ok t => .ok (t, m.recordSttEnd)

/-- `retrieve_context` (lines 145-175): record `rag_start`, build the
placeholder string
`f"Context for query: '{query}' (video: {video_id or 'all'})"`
(no external call, no exception possible — the function is total), record
`rag_end`.  Note `video_id or 'all'`: a `None` or empty (falsy) video id
both yield `'all'`. -/
def retrieve_context (query : PyStr) (video_id : Option PyStr)
    (m : VoicePipelineMetrics) : PyStr × VoicePipelineMetrics :=
  let m := m.recordRagStart
  let scope : PyStr :=
    match video_id with
    | some v => if v = [] then "all".toList else v
    | none => "all".toList
  let context :=
    "Context for query: '".toList ++ query ++ "' (video: ".toList ++ scope ++ ")".toList
  (context, m.recordRagEnd)

/-- `synthesize_speech` (lines 240-301): record `tts_start` (only when a
metrics object was passed — `track` models `metrics is not None`); if
`ELEVENLABS_API_KEY` is unset, return `b""` immediately (warning logged,
`tts_end` NOT recorded); otherwise run the provider: on success return its
bytes, on any exception catch it and return `b""`; both of those paths record
`tts_end`.  The function never raises. -/
def synthesize_speech (env : Env) (text : PyStr) (m : VoicePipelineMetrics)
    (track : Bool) : List Nat × VoicePipelineMetrics :=
  let m1 := if track then m.recordTtsStart else m
  if env.elevenKey = false then ([], m1)
  else
    match env.tts text with
    | .ok audioBytes => (audioBytes, if track then m1.recordTtsEnd else m1)
    | .error _ => ([], if track then m1.recordTtsEnd else m1)

/-- The audio bytes `synthesize_speech` returns for a given text, ignoring
metrics: empty when the credential is absent or the provider raised. -/
def synthBytes (env : Env) (text : PyStr) : List Nat :=
  if env.elevenKey = false then []
  else
    match env.tts text with
    | .ok audioBytes => audioBytes
    | .error _ => []

/-- Loop-carried state of the `async for` in `voice_pipeline_streaming`
(lines 363-381): the accumulation buffer, the audio blobs produced so far,
the metrics object, and the generator-local `first_token` flag of
`stream_claude_response`. -/
structure LoopState where
  buffer : PyStr
  audioChunks : List (List Nat)
  m : VoicePipelineMetrics
  firstToken : Bool

/-- One iteration of the streaming loop body (lines 366-381), fused with the
per-increment work of the `stream_claude_response` generator (recording
`llm_first_token` just before the first yield).  On emission,
`synthesize_speech` is called with the metrics object only for the first
chunk (`metrics=metrics if not audio_chunks else None`). -/
def streamLoopStep (env : Env) (chunk_size : Nat) (st : LoopState) (inc : PyStr) :
    LoopState :=
  let m := if st.firstToken then st.m.recordLlmFirstToken else st.m
  let buf := st.buffer ++ inc
  if chunkTrigger chunk_size buf inc then
    if pyStrip buf = [] then
      { buffer := buf, audioChunks := st.audioChunks, m := m, firstToken := false }
    else
      let r := synthesize_speech env (pyStrip buf) m st.audioChunks.isEmpty
      { buffer := [], audioChunks := st.audioChunks ++ [r.1], m := r.2,
        firstToken := false }
  else { buffer := buf, audioChunks := st.audioChunks, m := m, firstToken := false }

/-- The dictionary returned by `voice_pipeline_streaming` (lines 402-407),
extended with ghost observability fields: `metricsState` is the final state
of the local metrics object, `context` the string passed to the generator,
`fullAudio` the combined audio bytes (only its length, `audio_size`, is in
the Python dict; the optional file write is not modelled). -/
structure PipelineResult where
  transcript : PyStr
  response : PyStr
  audioSize : Nat
  report : LatencyReport
  metricsState : VoicePipelineMetrics
  context : PyStr
  fullAudio : List Nat
deriving DecidableEq

/-- `voice_pipeline_streaming` (lines 331-407) with the context-retrieval
call site abstracted: `retrieve` stands for the awaited call
`retrieve_context(user_message, video_id, metrics)`, which the orchestrator
performs with NO surrounding try/except, so any exception it raises
propagates (the actual pipeline instantiates it with the real, total,
`retrieve_context`).  Control flow: transcribe; retrieve context; start the
Claude stream (`llm_start`, then the `ANTHROPIC_API_KEY` check); fold the
streaming loop over the increments; record `llm_end` at stream exhaustion;
flush any remaining buffer through `synthesize_speech` without metrics;
concatenate the audio blobs in emission order. -/
def voice_pipeline_streaming_with
    (retrieve : PyStr → Option PyStr → VoicePipelineMetrics →
      Except (PyErr × VoicePipelineMetrics) (PyStr × VoicePipelineMetrics))
    (env : Env) (video_id : Option PyStr) (chunk_size : Nat) :
    Except (PyErr × VoicePipelineMetrics) PipelineResult :=
  match transcribe_audio env VoicePipelineMetrics.init with
  | .error em => .error em
  | .ok (tr, m1) =>
    match retrieve tr.text video_id m1 with
    | .error em => .error em
    | .ok (context, m2) =>
      let m3 := m2.recordLlmStart
      if env.anthropicKey = false then .error (.valueErrorNoAnthropicKey, m3)
      else
        let st := env.increments.foldl (streamLoopStep env chunk_size)
          { buffer := [], audioChunks := [], m := m3, firstToken := true }
        let m4 := st.m.recordLlmEnd
        let final :=
          if pyStrip st.buffer = [] then (st.audioChunks, m4)
          else
            let r := synthesize_speech env (pyStrip st.buffer) m4 false
            (st.audioChunks ++ [r.1], r.2)
        let fullAudio := final.1.flatten
        .ok { transcript := tr.text, response := env.increments.flatten,
              audioSize := fullAudio.length, report := final.2.report,
              metricsState := final.2, context := context, fullAudio := fullAudio }

/-- `voice_pipeline_streaming` as written: the retrieval call site is the
actual `retrieve_context`, which is total, so the call never fails. -/
def voice_pipeline_streaming (env : Env) (video_id : Option PyStr)
    (chunk_size : Nat) : Except (PyErr × VoicePipelineMetrics) PipelineResult :=
  voice_pipeline_streaming_with
    (fun q v m => .ok (retrieve_context q v m)) env video_id chunk_size

/-- Projection of the ghost chunker state onto the plain one. -/
def ChunkStateR.proj (st : ChunkStateR) : ChunkState :=
  { buffer := st.buffer, chunks := st.chunks }

/-- Invariant of the chunking loop: between iterations the buffer is below
the threshold, or consists of whitespace only (a triggered but
whitespace-only buffer is not emitted and not reset). -/
def chunkInv (T : Nat) (st : ChunkState) : Prop :=
  st.buffer.length < T ∨ ∀ c ∈ st.buffer, pyIsSpace c = true

/-- The metrics state after `llm_start` in any run whose transcription and
retrieval succeeded: ticks 1-5 went to `stt_start`, `stt_end`, `rag_start`,
`rag_end`, `llm_start`. -/
def mAfterLlmStart : VoicePipelineMetrics :=
  { sttStart := 1, sttEnd := 2, ragStart := 3, ragEnd := 4, llmStart := 5,
    llmFirstToken := 0, llmEnd := 0, ttsStart := 0, ttsEnd := 0, clock := 6 }

/-- A sample successful transcription. -/
def trSample : Transcript :=
  { text := "hi".toList, language := "he".toList, duration := 1 }

/-- Concrete world for the C4 counterexample: everything healthy, so that
only the (hypothetical) throwing retrieval provider can fail. -/
def envC4x : Env :=
  { openaiKey := true, anthropicKey := true, elevenKey := true,
    stt := .ok trSample, increments := ["Ok.".toList],
    tts := fun _ => .ok [7] }

/-- Concrete world for the C4 witness. -/
def envC4w : Env :=
  { openaiKey := true, anthropicKey := true, elevenKey := true,
    stt := .ok trSample, increments := ["Ok.".toList],
    tts := fun _ => .ok [7] }

/-- Concrete world for the C5 witness: synthesis credential absent. -/
def envC5w : Env :=
  { openaiKey := true, anthropicKey := true, elevenKey := false,
    stt := .ok trSample, increments := ["Fine.".toList, " Sure.".toList],
    tts := fun _ => .ok [9] }

/-- Concrete world for the C6 witness: the provider raises on the first
chunk text and succeeds on the second. -/
def envC6w : Env :=
  { openaiKey := true, anthropicKey := true, elevenKey := true,
    stt := .ok trSample, increments := ["A.".toList, "B.".toList],
    tts := fun t => if t = "A.".toList then .error 1 else .ok [5, 6] }

/-- Concrete world for the C7 counterexample: generation credential absent,
everything upstream healthy. -/
def envC7x : Env :=
  { openaiKey := true, anthropicKey := false, elevenKey := true,
    stt := .ok trSample, increments := ["Ok.".toList],
    tts := fun _ => .ok [7] }

/-- Concrete world for the C7 witness: transcription credential absent. -/
def envC7o : Env :=
  { openaiKey := false, anthropicKey := true, elevenKey := true,
    stt := .ok trSample, increments := ["Ok.".toList],
    tts := fun _ => .ok [7] }

/-- Concrete world for the C8 counterexample: the single increment `"Hi"`
never triggers the loop condition, so the only synthesized chunk is the
trailing flush — which is called without the metrics object. -/
def envC8x : Env :=
  { openaiKey := true, anthropicKey := true, elevenKey := true,
    stt := .ok trSample, increments := ["Hi".toList],
    tts := fun _ => .ok [1, 2, 3] }

/-- Concrete world for the C8 witness: the increment `"Hello."` ends with a
terminator, so the first chunk is emitted inside the loop. -/
def envC8w : Env :=
  { openaiKey := true, anthropicKey := true, elevenKey := true,
    stt := .ok trSample, increments := ["Hello.".toList],
    tts := fun _ => .ok [4] }

/-- Concrete world for the C10-adjacent pipeline witnesses. -/
def envC10w : Env :=
  { openaiKey := true, anthropicKey := true, elevenKey := true,
    stt := .ok trSample, increments := ["Ok.".toList],
    tts := fun _ => .ok [7] }

/-! ## Helper lemmas about `pyStrip` -/

theorem length_pyStrip_le (s : PyStr) : (pyStrip s).length ≤ s.length := by
  unfold pyStrip
  have h1 := (List.dropWhile_sublist (l := (s.dropWhile pyIsSpace).reverse) pyIsSpace).length_le
  have h2 := (List.dropWhile_sublist (l := s) pyIsSpace).length_le
  simp only [List.length_reverse] at h1 ⊢
  omega

theorem pyStrip_eq_nil_iff (s : PyStr) :
    pyStrip s = [] ↔ ∀ c ∈ s, pyIsSpace c = true := by
  unfold pyStrip
  rw [List.reverse_eq_nil_iff, List.dropWhile_eq_nil_iff]
  constructor
  · intro h c hc
    have hs : c ∈ List.takeWhile pyIsSpace s ++ List.dropWhile pyIsSpace s := by
      rw [List.takeWhile_append_dropWhile]; exact hc
    rcases List.mem_append.mp hs with h1 | h2
    · exact List.mem_takeWhile_imp h1
    · exact h _ (List.mem_reverse.mpr h2)
  · intro h x hx
    exact h x ((List.dropWhile_sublist pyIsSpace).subset (List.mem_reverse.mp hx))

theorem dropWhile_append_of_forall {p : Char → Bool} {w : PyStr} (s : PyStr)
    (hw : ∀ c ∈ w, p c = true) :
    List.dropWhile p (w ++ s) = List.dropWhile p s := by
  induction w with
  | nil => simp
  | cons c w ih =>
    have hc : p c = true := hw c (by simp)
    simpa [List.dropWhile_cons, hc] using ih (fun x hx => hw x (by simp [hx]))

theorem pyStrip_ws_append {w : PyStr} (s : PyStr)
    (hw : ∀ c ∈ w, pyIsSpace c = true) :
    pyStrip (w ++ s) = pyStrip s := by
  unfold pyStrip
  rw [dropWhile_append_of_forall s hw]

theorem of_chunkTrigger_false {T : Nat} {buf inc : PyStr}
    (h : chunkTrigger T buf inc = false) : buf.length < T := by
  simp only [chunkTrigger, Bool.or_eq_false_iff, decide_eq_false_iff_not] at h
  omega

/-! ## Chunker lemmas -/

theorem chunkStepR_proj (T : Nat) (st : ChunkStateR) (inc : PyStr) :
    (chunkStepR T st inc).proj = chunkStep T st.proj inc := by
  simp only [chunkStepR, chunkStep, ChunkStateR.proj]
  split
  · split <;> rfl
  · rfl

theorem chunkFoldR_proj_fold (T : Nat) (incs : List PyStr) :
    ∀ st : ChunkStateR,
      (List.foldl (chunkStepR T) st incs).proj
        = List.foldl (chunkStep T) st.proj incs := by
  induction incs with
  | nil => intro st; rfl
  | cons i rest ih =>
    intro st
    simp only [List.foldl_cons]
    rw [ih (chunkStepR T st i), chunkStepR_proj]

theorem chunkFold_eq_projR (T : Nat) (incs : List PyStr) :
    chunkFold T incs = (chunkFoldR T incs).proj := by
  unfold chunkFold chunkFoldR
  rw [chunkFoldR_proj_fold]
  rfl

theorem chunkStep_chunks_cases (T : Nat) (st : ChunkState) (inc : PyStr) :
    ∀ c ∈ (chunkStep T st inc).chunks,
      c ∈ st.chunks ∨ c = pyStrip (st.buffer ++ inc) := by
  intro c hc
  simp only [chunkStep] at hc
  split at hc
  · split at hc
    · exact .inl hc
    · simp only [List.mem_append, List.mem_singleton] at hc
      rcases hc with h | h
      · exact .inl h
      · exact .inr h
  · exact .inl hc

theorem chunkStep_inv {T : Nat} {st : ChunkState} (inc : PyStr) (hT : 1 ≤ T) :
    chunkInv T (chunkStep T st inc) := by
  simp only [chunkStep]
  split
  · split
    · right
      exact (pyStrip_eq_nil_iff _).mp (by assumption)
    · left
      simpa using hT
  · left
    exact of_chunkTrigger_false (by simpa using (Bool.not_eq_true _).mp (by assumption))

theorem emitted_length_bound {T : Nat} {st : ChunkState} (inc : PyStr)
    (h : chunkInv T st) :
    (pyStrip (st.buffer ++ inc)).length ≤ T - 1 + inc.length := by
  rcases h with hlt | hws
  · have hle := length_pyStrip_le (st.buffer ++ inc)
    simp only [List.length_append] at hle
    omega
  · rw [pyStrip_ws_append inc hws]
    have hle := length_pyStrip_le inc
    omega

theorem maxIncLen_cons (i : PyStr) (rest : List PyStr) :
    maxIncLen (i :: rest) = max i.length (maxIncLen rest) := rfl

theorem chunkFold_inv_bound (T : Nat) (hT : 1 ≤ T) :
    ∀ (incs : List PyStr) (st : ChunkState), chunkInv T st →
      chunkInv T (List.foldl (chunkStep T) st incs) ∧
      ∀ c ∈ (List.foldl (chunkStep T) st incs).chunks,
        c ∈ st.chunks ∨ c.length ≤ T - 1 + maxIncLen incs := by
  intro incs
  induction incs with
  | nil =>
    intro st h
    exact ⟨h, fun c hc => .inl hc⟩
  | cons i rest ih =>
    intro st h
    simp only [List.foldl_cons]
    obtain ⟨h1, h2⟩ := ih (chunkStep T st i) (chunkStep_inv i hT)
    refine ⟨h1, fun c hc => ?_⟩
    rcases h2 c hc with hmem | hlen
    · rcases chunkStep_chunks_cases T st i c hmem with hold | hnew
      · exact .inl hold
      · right
        have := emitted_length_bound i h
        rw [hnew]
        have hmax : i.length ≤ maxIncLen (i :: rest) := by
          rw [maxIncLen_cons]; exact le_max_left _ _
        omega
    · right
      have hmax : maxIncLen rest ≤ maxIncLen (i :: rest) := by
        rw [maxIncLen_cons]; exact le_max_right _ _
      omega

theorem chunkFoldR_ghost (T : Nat) :
    ∀ (incs : List PyStr) (st : ChunkStateR),
      (List.foldl (chunkStepR T) st incs).segs.flatten
          ++ (List.foldl (chunkStepR T) st incs).buffer
        = st.segs.flatten ++ st.buffer ++ incs.flatten ∧
      (st.chunks = st.segs.map pyStrip →
        (List.foldl (chunkStepR T) st incs).chunks
          = (List.foldl (chunkStepR T) st incs).segs.map pyStrip) ∧
      ((∀ c ∈ st.chunks, c ≠ []) →
        ∀ c ∈ (List.foldl (chunkStepR T) st incs).chunks, c ≠ []) := by
  intro incs
  induction incs with
  | nil =>
    intro st
    exact ⟨by simp, fun h => h, fun h => h⟩
  | cons i rest ih =>
    intro st
    simp only [List.foldl_cons]
    obtain ⟨e1, e2, e3⟩ := ih (chunkStepR T st i)
    have hstep :
        (chunkStepR T st i).segs.flatten ++ (chunkStepR T st i).buffer
            = st.segs.flatten ++ st.buffer ++ i ∧
          (st.chunks = st.segs.map pyStrip →
            (chunkStepR T st i).chunks = (chunkStepR T st i).segs.map pyStrip) ∧
          ((∀ c ∈ st.chunks, c ≠ []) → ∀ c ∈ (chunkStepR T st i).chunks, c ≠ []) := by
      simp only [chunkStepR]
      split
      · split
        · exact ⟨by simp [List.append_assoc], fun h => h, fun h => h⟩
        · refine ⟨by simp [List.flatten_append], ?_, ?_⟩
          · intro h
            simp [h, List.map_append]
          · intro h c hc
            simp only [List.mem_append, List.mem_singleton] at hc
            rcases hc with hc | hc
            · exact h c hc
            · rw [hc]; assumption
      · exact ⟨by simp [List.append_assoc], fun h => h, fun h => h⟩
    refine ⟨?_, ?_, ?_⟩
    · rw [e1, hstep.1, List.flatten_cons]
      simp [List.append_assoc]
    · intro h
      exact e2 (hstep.2.1 h)
    · intro h
      exact e3 (hstep.2.2 h)

/-! ## `synthesize_speech` helper lemmas -/

theorem synthesize_speech_fst (env : Env) (t : PyStr) (m : VoicePipelineMetrics)
    (track : Bool) : (synthesize_speech env t m track).1 = synthBytes env t := by
  simp only [synthesize_speech, synthBytes]
  by_cases hk : env.elevenKey = false
  · simp [hk]
  · simp only [hk, if_false]
    cases env.tts t <;> rfl

theorem synthesize_speech_track_false (env : Env) (t : PyStr)
    (m : VoicePipelineMetrics) : (synthesize_speech env t m false).2 = m := by
  simp only [synthesize_speech, Bool.false_eq_true, if_false]
  by_cases hk : env.elevenKey = false
  · simp [hk]
  · simp only [hk, if_false]
    cases env.tts t <;> rfl

/-! ## Streaming loop / chunker correspondence -/

theorem streamFold_chunk_rel (env : Env) (cs : Nat) :
    ∀ (incs : List PyStr) (st : LoopState) (cst : ChunkState),
      st.buffer = cst.buffer →
      st.audioChunks = cst.chunks.map (synthBytes env) →
      (List.foldl (streamLoopStep env cs) st incs).buffer
          = (List.foldl (chunkStep cs) cst incs).buffer ∧
        (List.foldl (streamLoopStep env cs) st incs).audioChunks
          = (List.foldl (chunkStep cs) cst incs).chunks.map (synthBytes env) := by
  intro incs
  induction incs with
  | nil =>
    intro st cst hb ha
    exact ⟨hb, ha⟩
  | cons i rest ih =>
    intro st cst hb ha
    simp only [List.foldl_cons]
    apply ih
    · simp only [streamLoopStep, chunkStep, hb]
      split
      · split <;> rfl
      · rfl
    · simp only [streamLoopStep, chunkStep, hb]
      split
      · split
        · exact ha
        · simp only [ha, List.map_append, List.map_cons, List.map_nil,
            synthesize_speech_fst]
      · exact ha

/-! ## Pipeline shape lemmas -/

theorem transcribe_audio_ok {env : Env} {tr : Transcript}
    (ho : env.openaiKey = true) (hs : env.stt = .ok tr)
    (m : VoicePipelineMetrics) :
    transcribe_audio env m = .ok (tr, m.recordSttStart.recordSttEnd) := by
  simp [transcribe_audio, ho, hs]

theorem m3_concrete :
    ((((VoicePipelineMetrics.init.recordSttStart).recordSttEnd).recordRagStart).recordRagEnd).recordLlmStart
      = mAfterLlmStart := by
  decide

theorem retrieve_context_snd (q : PyStr) (v : Option PyStr)
    (m : VoicePipelineMetrics) :
    (retrieve_context q v m).2 = m.recordRagStart.recordRagEnd := rfl

theorem pipeline_ok_shape (env : Env) (video_id : Option PyStr) (cs : Nat)
    (tr : Transcript) (ho : env.openaiKey = true) (ha : env.anthropicKey = true)
    (hs : env.stt = .ok tr) :
    voice_pipeline_streaming env video_id cs = .ok
      { transcript := tr.text,
        response := env.increments.flatten,
        audioSize := (((chunkAll cs env.increments).map (synthBytes env)).flatten).length,
        report := ((List.foldl (streamLoopStep env cs)
          { buffer := [], audioChunks := [], m := mAfterLlmStart, firstToken := true }
          env.increments).m.recordLlmEnd).report,
        metricsState := (List.foldl (streamLoopStep env cs)
          { buffer := [], audioChunks := [], m := mAfterLlmStart, firstToken := true }
          env.increments).m.recordLlmEnd,
        context :=
          (retrieve_context tr.text video_id
            (VoicePipelineMetrics.init.recordSttStart.recordSttEnd)).1,
        fullAudio := ((chunkAll cs env.increments).map (synthBytes env)).flatten } := by
  have hrel := streamFold_chunk_rel env cs env.increments
    { buffer := [], audioChunks := [], m := mAfterLlmStart, firstToken := true }
    { buffer := [], chunks := [] } rfl rfl
  have hfold : chunkFold cs env.increments
      = List.foldl (chunkStep cs) { buffer := [], chunks := [] } env.increments := rfl
  simp only [voice_pipeline_streaming, voice_pipeline_streaming_with,
    transcribe_audio_ok ho hs, ha, Bool.true_eq_false, if_false]
  simp only [retrieve_context_snd, m3_concrete]
  set F := List.foldl (streamLoopStep env cs)
    { buffer := [], audioChunks := [], m := mAfterLlmStart, firstToken := true }
    env.increments with hF
  obtain ⟨hb, hac⟩ := hrel
  rw [← hfold] at hb hac
  by_cases hstrip : pyStrip F.buffer = []
  · rw [if_pos hstrip]
    have hAll : chunkAll cs env.increments = (chunkFold cs env.increments).chunks := by
      simp only [chunkAll]
      rw [if_pos (hb ▸ hstrip)]
    rw [hAll, ← hac]
  · rw [if_neg hstrip]
    have hAll : chunkAll cs env.increments
        = (chunkFold cs env.increments).chunks
            ++ [pyStrip (chunkFold cs env.increments).buffer] := by
      simp only [chunkAll]
      rw [if_neg (by rw [← hb]; exact hstrip)]
    rw [hAll]
    simp only [List.map_append, List.map_cons, List.map_nil, ← hac, ← hb,
      synthesize_speech_fst, synthesize_speech_track_false]

/-! ## Metrics behaviour of the streaming loop -/

theorem synthesize_speech_track_true_snd (env : Env) (t : PyStr)
    (m : VoicePipelineMetrics) (h : 1 ≤ m.clock) :
    (synthesize_speech env t m true).2.ttsStart = m.clock ∧
      1 ≤ (synthesize_speech env t m true).2.clock ∧
      (env.elevenKey = true → (synthesize_speech env t m true).2.ttsEnd ≠ 0) := by
  simp only [synthesize_speech, if_true]
  by_cases hk : env.elevenKey = false
  · simp [hk, VoicePipelineMetrics.recordTtsStart] <;> omega
  · have hk2 : env.elevenKey = true := by
      revert hk; cases env.elevenKey <;> simp
    cases env.tts t <;>
      simp [hk2, VoicePipelineMetrics.recordTtsStart,
        VoicePipelineMetrics.recordTtsEnd] <;>
      omega

theorem streamFold_metrics_frozen (env : Env) (cs : Nat) :
    ∀ (incs : List PyStr) (st : LoopState),
      st.audioChunks ≠ [] → st.firstToken = false →
      (List.foldl (streamLoopStep env cs) st incs).m = st.m := by
  intro incs
  induction incs with
  | nil =>
    intro st _ _
    rfl
  | cons i rest ih =>
    intro st h1 h2
    simp only [List.foldl_cons]
    have hstep : (streamLoopStep env cs st i).m = st.m ∧
        (streamLoopStep env cs st i).audioChunks ≠ [] ∧
        (streamLoopStep env cs st i).firstToken = false := by
      have hne : st.audioChunks.isEmpty = false := by
        simpa [List.isEmpty_iff] using h1
      simp only [streamLoopStep, h2, Bool.false_eq_true, if_false, hne]
      split
      · split
        · exact ⟨rfl, h1, rfl⟩
        · exact ⟨synthesize_speech_track_false env _ st.m, by simp, rfl⟩
      · exact ⟨rfl, h1, rfl⟩
    rw [ih _ hstep.2.1 hstep.2.2, hstep.1]

theorem streamFold_tts_set (env : Env) (cs : Nat) :
    ∀ (incs : List PyStr) (st : LoopState),
      1 ≤ st.m.clock →
      (st.audioChunks = [] ∨
        (st.m.ttsStart ≠ 0 ∧ (env.elevenKey = true → st.m.ttsEnd ≠ 0))) →
      1 ≤ (List.foldl (streamLoopStep env cs) st incs).m.clock ∧
      ((List.foldl (streamLoopStep env cs) st incs).audioChunks = [] ∨
        ((List.foldl (streamLoopStep env cs) st incs).m.ttsStart ≠ 0 ∧
          (env.elevenKey = true →
            (List.foldl (streamLoopStep env cs) st incs).m.ttsEnd ≠ 0))) := by
  intro incs
  induction incs with
  | nil =>
    intro st h1 h2
    exact ⟨h1, h2⟩
  | cons i rest ih =>
    intro st h1 h2
    simp only [List.foldl_cons]
    apply ih
    · -- the clock never decreases below 1 in one step
      simp only [streamLoopStep]
      split
      · split
        · cases hft : st.firstToken <;>
            simp [hft, VoicePipelineMetrics.recordLlmFirstToken] <;> omega
        · rcases hac : st.audioChunks.isEmpty with hf | ht
          · cases hft : st.firstToken <;>
              simp [hft, hac, synthesize_speech_track_false,
                VoicePipelineMetrics.recordLlmFirstToken] <;> omega
          · cases hft : st.firstToken
            · exact (synthesize_speech_track_true_snd env _ st.m h1).2.1
            · have := (synthesize_speech_track_true_snd env
                (pyStrip (st.buffer ++ i))
                st.m.recordLlmFirstToken (by
                  simp [VoicePipelineMetrics.recordLlmFirstToken] <;> omega)).2.1
              simpa [hft] using this
      · cases hft : st.firstToken <;>
          simp [hft, VoicePipelineMetrics.recordLlmFirstToken] <;> omega
    · -- the tts-recorded disjunction is preserved by one step
      simp only [streamLoopStep]
      split
      · split
        · rcases h2 with hl | hr
          · left; exact hl
          · right
            cases hft : st.firstToken <;>
              simpa [hft, VoicePipelineMetrics.recordLlmFirstToken] using hr
        · right
          rcases hac : st.audioChunks.isEmpty with hf | ht
          · -- a chunk was already emitted: metrics untouched
            rcases h2 with hl | hr
            · exact absurd (List.isEmpty_iff.mpr hl) (by
                intro hcon
                rw [hcon] at hac
                -- contradiction between hac : isEmpty = false and hcon
                simp at hac)
            · cases hft : st.firstToken <;>
                simpa [hft, hac, synthesize_speech_track_false,
                  VoicePipelineMetrics.recordLlmFirstToken] using hr
          · -- first emission: tts_start is recorded now
            cases hft : st.firstToken
            · have h3 := synthesize_speech_track_true_snd env
                (pyStrip (st.buffer ++ i)) st.m h1
              simp only [hft, Bool.false_eq_true, if_false, hac]
              exact ⟨by rw [h3.1]; omega, h3.2.2⟩
            · have hc1 : 1 ≤ st.m.recordLlmFirstToken.clock := by
                simp [VoicePipelineMetrics.recordLlmFirstToken] <;> omega
              have h3 := synthesize_speech_track_true_snd env
                (pyStrip (st.buffer ++ i)) st.m.recordLlmFirstToken hc1
              simp only [hft, if_true, hac]
              exact ⟨by rw [h3.1]; omega, h3.2.2⟩
      · rcases h2 with hl | hr
        · left; exact hl
        · right
          cases hft : st.firstToken <;>
            simpa [hft, VoicePipelineMetrics.recordLlmFirstToken] using hr

theorem streamFold_tts_unset (env : Env) (cs : Nat) :
    ∀ (incs : List PyStr) (st : LoopState),
      (st.audioChunks = [] → st.m.ttsStart = 0 ∧ st.m.ttsEnd = 0) →
      ((List.foldl (streamLoopStep env cs) st incs).audioChunks = [] →
        (List.foldl (streamLoopStep env cs) st incs).m.ttsStart = 0 ∧
          (List.foldl (streamLoopStep env cs) st incs).m.ttsEnd = 0) := by
  intro incs
  induction incs with
  | nil =>
    intro st h
    exact h
  | cons i rest ih =>
    intro st h
    simp only [List.foldl_cons]
    apply ih
    simp only [streamLoopStep]
    split
    · split
      · intro hac
        cases hft : st.firstToken <;>
          simpa [hft, VoicePipelineMetrics.recordLlmFirstToken] using h hac
      · intro hac
        simp at hac
    · intro hac
      cases hft : st.firstToken <;>
        simpa [hft, VoicePipelineMetrics.recordLlmFirstToken] using h hac

theorem retrieve_context_fst_ne_nil (q : PyStr) (v : Option PyStr)
    (m : VoicePipelineMetrics) : (retrieve_context q v m).1 ≠ [] := by
  apply List.ne_nil_of_length_pos
  simp only [retrieve_context, List.length_append]
  have hpre : ("Context for query: '".toList : PyStr).length = 20 := by decide
  omega

/-! ## Claim theorems -/

/-- C1 counterexample: for the increment stream `["a.", " b"]` the emitted
chunks are `["a.", "b"]` (the trailing chunk is whitespace-stripped), so the
concatenation of the chunk texts (`"a.b"`) differs from the concatenation of
the increments (`"a. b"`). -/
theorem chunker_concat_counterexample :
    chunkAll 200 ["a.".toList, " b".toList] = ["a.".toList, "b".toList] ∧
    (chunkAll 200 ["a.".toList, " b".toList]).flatten
      ≠ (["a.".toList, " b".toList] : List PyStr).flatten := by
  constructor
  · decide
  · decide

/-- C1 (amended): for every increment stream the chunker never emits a chunk
with empty text, and each emitted chunk is the whitespace-stripped content of
a buffer segment, where the raw segments concatenate exactly to the
concatenation of all increments (so the chunk texts concatenate to the
increments' concatenation with whitespace removed at segment boundaries). -/
theorem chunker_nonempty_and_stripped_segments (T : Nat) (incs : List PyStr) :
    (∀ c ∈ chunkAll T incs, c ≠ []) ∧
    (chunkSegs T incs).flatten = incs.flatten ∧
    chunkAll T incs
      = ((chunkSegs T incs).map pyStrip).filter (fun c => !c.isEmpty) := by
  obtain ⟨e1, e2, e3⟩ :=
    chunkFoldR_ghost T incs { buffer := [], chunks := [], segs := [] }
  have hchunks : (chunkFoldR T incs).chunks = (chunkFoldR T incs).segs.map pyStrip :=
    e2 rfl
  have hne : ∀ c ∈ (chunkFoldR T incs).chunks, c ≠ [] :=
    e3 (by intro c hc; simp at hc)
  have hflat :
      (chunkFoldR T incs).segs.flatten ++ (chunkFoldR T incs).buffer
        = incs.flatten := by
    simpa using e1
  have hproj : chunkFold T incs = (chunkFoldR T incs).proj :=
    chunkFold_eq_projR T incs
  refine ⟨?_, ?_, ?_⟩
  · intro c hc
    simp only [chunkAll, hproj, ChunkStateR.proj] at hc
    by_cases hfb : pyStrip (chunkFoldR T incs).buffer = []
    · rw [if_pos hfb] at hc
      exact hne c hc
    · rw [if_neg hfb] at hc
      rcases List.mem_append.mp hc with h | h
      · exact hne c h
      · rw [List.mem_singleton.mp h]
        exact hfb
  · simp only [chunkSegs, List.flatten_append, List.flatten_cons,
      List.flatten_nil, List.append_nil]
    exact hflat
  · have hfilter :
        List.filter (fun c => !c.isEmpty) ((chunkFoldR T incs).segs.map pyStrip)
          = (chunkFoldR T incs).segs.map pyStrip := by
      apply List.filter_eq_self.mpr
      intro a ha
      have : a ≠ [] := hne a (hchunks ▸ ha)
      simpa [List.isEmpty_iff] using this
    simp only [chunkAll, hproj, ChunkStateR.proj, chunkSegs, List.map_append,
      List.filter_append, hfilter, List.map_cons, List.map_nil]
    by_cases hfb : pyStrip (chunkFoldR T incs).buffer = []
    · rw [if_pos hfb]
      simp [hchunks, hfb]
    · rw [if_neg hfb]
      have : (pyStrip (chunkFoldR T incs).buffer).isEmpty = false := by
        simpa [List.isEmpty_iff] using hfb
      simp [hchunks, List.filter_cons, this]

/-- C1 witness: the amended theorem instantiated on the stream
`["a.", " b"]`; its first emitted chunk is non-empty. -/
theorem chunker_nonempty_and_stripped_segments_witness : "a.".toList ≠ [] :=
  (chunker_nonempty_and_stripped_segments 200 ["a.".toList, " b".toList]).1
    ("a.".toList) (by decide)

set_option maxRecDepth 8000 in
/-- C2 counterexample: (a) a single 201-character increment of letters `a`
with threshold 200 is emitted as one chunk of 201 characters that does not
end with a sentence terminator — the threshold is overrun without any
terminator involved; (b) for the stream `["a.", " "]` the remaining buffer
`" "` at stream end is non-empty yet no final chunk is emitted for it. -/
theorem chunker_overrun_counterexample :
    (chunkAll 200 [List.replicate 201 'a'] = [List.replicate 201 'a'] ∧
      200 < (List.replicate 201 'a' : PyStr).length ∧
      endsTerm (List.replicate 201 'a') = false) ∧
    (chunkAll 200 [['a', '.'], [' ']] = ["a.".toList] ∧
      (chunkFold 200 [['a', '.'], [' ']]).buffer = [' '] ∧
      ([' '] : PyStr) ≠ []) := by
  constructor
  · refine ⟨by decide, by decide, by decide⟩
  · refine ⟨by decide, by decide, by decide⟩

/-- C2 (amended): for every increment stream and every threshold `T ≥ 1`, no
emitted chunk exceeds `T - 1` plus the length of the longest increment
(threshold overrun is confined to the single increment whose append crossed
`T`, whether or not it ends with a terminator); and at stream end a remaining
buffer that strips to non-empty text is emitted as a final chunk — of length
under the threshold — even though it ends with no terminator. -/
theorem chunker_length_bound_and_trailing_flush (T : Nat) (incs : List PyStr)
    (hT : 1 ≤ T) :
    (∀ c ∈ chunkAll T incs, c.length ≤ T - 1 + maxIncLen incs) ∧
    (pyStrip (chunkFold T incs).buffer ≠ [] →
      chunkAll T incs
        = (chunkFold T incs).chunks ++ [pyStrip (chunkFold T incs).buffer] ∧
      (pyStrip (chunkFold T incs).buffer).length < T) := by
  have hfold : chunkFold T incs
      = List.foldl (chunkStep T) { buffer := [], chunks := [] } incs := rfl
  have hinit : chunkInv T { buffer := [], chunks := [] } := .inl (by
    show (0 : Nat) < T
    omega)
  obtain ⟨hinv, hbound⟩ :=
    chunkFold_inv_bound T hT incs { buffer := [], chunks := [] } hinit
  rw [← hfold] at hinv hbound
  have hshort : pyStrip (chunkFold T incs).buffer ≠ [] →
      (pyStrip (chunkFold T incs).buffer).length < T := by
    intro hfb
    rcases hinv with hlt | hws
    · have := length_pyStrip_le (chunkFold T incs).buffer
      omega
    · exact absurd ((pyStrip_eq_nil_iff _).mpr hws) hfb
  constructor
  · intro c hc
    simp only [chunkAll] at hc
    by_cases hfb : pyStrip (chunkFold T incs).buffer = []
    · rw [if_pos hfb] at hc
      rcases hbound c hc with h | h
      · simp at h
      · exact h
    · rw [if_neg hfb] at hc
      rcases List.mem_append.mp hc with h | h
      · rcases hbound c h with h2 | h2
        · simp at h2
        · exact h2
      · rw [List.mem_singleton.mp h]
        have := hshort hfb
        omega
  · intro hfb
    refine ⟨?_, hshort hfb⟩
    simp only [chunkAll]
    rw [if_neg hfb]

/-- C2 witness: the amended theorem instantiated at `T = 200` on the stream
`["Hi"]`, whose single trailing chunk is flushed at stream end. -/
theorem chunker_length_bound_and_trailing_flush_witness :
    ("Hi".toList.length ≤ 200 - 1 + maxIncLen ["Hi".toList]) ∧
    (chunkAll 200 ["Hi".toList]
        = (chunkFold 200 ["Hi".toList]).chunks
            ++ [pyStrip (chunkFold 200 ["Hi".toList]).buffer] ∧
      (pyStrip (chunkFold 200 ["Hi".toList]).buffer).length < 200) :=
  ⟨(chunker_length_bound_and_trailing_flush 200 ["Hi".toList] (by decide)).1
      ("Hi".toList) (by decide),
    (chunker_length_bound_and_trailing_flush 200 ["Hi".toList] (by decide)).2
      (by decide)⟩

/-- C3 counterexample: on the stream `["Hello", " world.", " Bye"]` with
threshold 100, the second (trailing) chunk is the stripped text `"Bye"`, not
`" Bye"`. -/
theorem chunker_scenario_counterexample :
    chunkAll 100 ["Hello".toList, " world.".toList, " Bye".toList]
      = ["Hello world.".toList, "Bye".toList] ∧
    chunkAll 100 ["Hello".toList, " world.".toList, " Bye".toList]
      ≠ ["Hello world.".toList, " Bye".toList] := by
  constructor
  · decide
  · decide

/-- C3 (amended): on the stream `["Hello", " world.", " Bye"]` with threshold
100, terminator-triggered emission fires immediately after `" world."` is
appended (after two increments the chunk list is exactly `["Hello world."]`,
sequence number 0, and the buffer is reset), and at stream end the remainder
`" Bye"` is emitted stripped, as the chunk `"Bye"` with sequence number 1. -/
theorem chunker_scenario_amended :
    (chunkFold 100 ["Hello".toList, " world.".toList]).chunks
        = ["Hello world.".toList] ∧
    (chunkFold 100 ["Hello".toList, " world.".toList]).buffer = [] ∧
    chunkAll 100 ["Hello".toList, " world.".toList, " Bye".toList]
      = ["Hello world.".toList, "Bye".toList] := by
  refine ⟨by decide, by decide, by decide⟩

/-- C9 (confirmed): for every metrics state, the latency report returns 0 for
a stage's duration whenever that stage's end timestamp was never recorded
(still 0, i.e. falsy), for each of the stt, rag, llm (first-token and total)
and tts stages. -/
theorem report_zero_when_end_unset (m : VoicePipelineMetrics) :
    (m.sttEnd = 0 → m.report.sttLatencyMs = 0) ∧
    (m.ragEnd = 0 → m.report.ragLatencyMs = 0) ∧
    (m.llmFirstToken = 0 → m.report.llmFirstTokenMs = 0) ∧
    (m.llmEnd = 0 → m.report.llmTotalMs = 0) ∧
    (m.ttsEnd = 0 → m.report.ttsLatencyMs = 0) := by
  refine ⟨fun h => ?_, fun h => ?_, fun h => ?_, fun h => ?_, fun h => ?_⟩ <;>
    simp [VoicePipelineMetrics.report, h]

/-- C9 witness: the theorem applied to the freshly initialised metrics
object, all of whose end timestamps are unset. -/
theorem report_zero_when_end_unset_witness :
    VoicePipelineMetrics.init.report.sttLatencyMs = 0 ∧
    VoicePipelineMetrics.init.report.ragLatencyMs = 0 ∧
    VoicePipelineMetrics.init.report.llmFirstTokenMs = 0 ∧
    VoicePipelineMetrics.init.report.llmTotalMs = 0 ∧
    VoicePipelineMetrics.init.report.ttsLatencyMs = 0 :=
  ⟨(report_zero_when_end_unset _).1 rfl,
    (report_zero_when_end_unset _).2.1 rfl,
    (report_zero_when_end_unset _).2.2.1 rfl,
    (report_zero_when_end_unset _).2.2.2.1 rfl,
    (report_zero_when_end_unset _).2.2.2.2 rfl⟩

/-- C10 counterexample: for the supplied but empty video id `""` the code
falls back to `'all'` (Python `video_id or 'all'` treats the empty string as
falsy), so the returned string is not the one the claim predicts for a
supplied id. -/
theorem retrieve_context_empty_video_id_counterexample :
    (retrieve_context "q".toList (some []) VoicePipelineMetrics.init).1
        = "Context for query: 'q' (video: all)".toList ∧
    "Context for query: 'q' (video: all)".toList
        ≠ "Context for query: 'q' (video: )".toList := by
  constructor
  · decide
  · decide

/-- C10 (amended): for every query and optional video id, `retrieve_context`
is total (never raises, consults no provider field of the environment) and
returns exactly `"Context for query: 'q' (video: s)"` where `s` is the video
id if it is supplied and non-empty, and `'all'` if it is absent or empty; in
particular the returned context string is never empty. -/
theorem retrieve_context_placeholder_format (q : PyStr) (v : Option PyStr)
    (m : VoicePipelineMetrics) :
    (retrieve_context q v m).1 ≠ [] ∧
    ((v = none ∨ v = some []) →
      (retrieve_context q v m).1
        = "Context for query: '".toList ++ q
            ++ "' (video: ".toList ++ "all".toList ++ ")".toList) ∧
    (∀ s, v = some s → s ≠ [] →
      (retrieve_context q v m).1
        = "Context for query: '".toList ++ q
            ++ "' (video: ".toList ++ s ++ ")".toList) := by
  refine ⟨retrieve_context_fst_ne_nil q v m, ?_, ?_⟩
  · rintro (rfl | rfl) <;> simp [retrieve_context]
  · rintro s rfl hs
    simp [retrieve_context, hs]

/-- C10 witness: the amended theorem applied at a concrete query with an
absent video id, a concrete empty one, and a concrete non-empty one. -/
theorem retrieve_context_placeholder_format_witness :
    (retrieve_context "q".toList none VoicePipelineMetrics.init).1 ≠ [] ∧
    (retrieve_context "q".toList none VoicePipelineMetrics.init).1
        = "Context for query: '".toList ++ "q".toList
            ++ "' (video: ".toList ++ "all".toList ++ ")".toList ∧
    (retrieve_context "q".toList (some "v7".toList) VoicePipelineMetrics.init).1
        = "Context for query: '".toList ++ "q".toList
            ++ "' (video: ".toList ++ "v7".toList ++ ")".toList :=
  ⟨(retrieve_context_placeholder_format "q".toList none VoicePipelineMetrics.init).1,
    (retrieve_context_placeholder_format "q".toList none
      VoicePipelineMetrics.init).2.1 (.inl rfl),
    (retrieve_context_placeholder_format "q".toList (some "v7".toList)
      VoicePipelineMetrics.init).2.2 "v7".toList rfl (by decide)⟩

/-- C4 counterexample: the orchestrator performs the retrieval call with no
surrounding try/except, so a context provider that always throws makes the
whole pipeline fail — the error reaches the caller instead of being caught
and replaced by an empty context. -/
theorem retrieval_error_propagates_counterexample :
    voice_pipeline_streaming_with
        (fun _ _ m => .error (.providerError 7, m)) envC4x none 200
      = .error (.providerError 7,
          VoicePipelineMetrics.init.recordSttStart.recordSttEnd) := by
  rfl

/-- C4 (amended): in the code as written retrieval can never fail —
`retrieve_context` is a total local placeholder that contacts no provider
and always returns a non-empty formatted string — so a healthy run always
completes with that non-empty placeholder recorded as context; the
orchestrator, however, contains no error handling at the retrieval call
site, so an error raised there would propagate to the caller. -/
theorem retrieval_total_and_pipeline_completes (env : Env)
    (video_id : Option PyStr) (cs : Nat) (tr : Transcript)
    (ho : env.openaiKey = true) (ha : env.anthropicKey = true)
    (hs : env.stt = .ok tr) :
    (∀ q v m, (retrieve_context q v m).1 ≠ []) ∧
    ∃ r, voice_pipeline_streaming env video_id cs = .ok r ∧
      r.context = (retrieve_context tr.text video_id
        VoicePipelineMetrics.init.recordSttStart.recordSttEnd).1 ∧
      r.context ≠ [] := by
  refine ⟨fun q v m => retrieve_context_fst_ne_nil q v m, ?_⟩
  refine ⟨_, pipeline_ok_shape env video_id cs tr ho ha hs, rfl, ?_⟩
  exact retrieve_context_fst_ne_nil tr.text video_id
    VoicePipelineMetrics.init.recordSttStart.recordSttEnd

/-- C4 witness: the amended theorem instantiated on a concrete healthy
world; the pipeline reaches its successful final state. -/
theorem retrieval_total_and_pipeline_completes_witness :
    (retrieve_context "q".toList none VoicePipelineMetrics.init).1 ≠ [] ∧
    (voice_pipeline_streaming envC4w none 200).isOk = true := by
  have h := retrieval_total_and_pipeline_completes envC4w none 200 trSample
    rfl rfl rfl
  refine ⟨h.1 "q".toList none VoicePipelineMetrics.init, ?_⟩
  obtain ⟨r, h1, -, -⟩ := h.2
  rw [h1]
  rfl

/-- C5 (confirmed): when the synthesis credential is absent,
`synthesize_speech` returns empty bytes for every text (and cannot raise:
its result type is not fallible, mirroring the catch-all in the source), and
a pipeline run whose transcription and generation are healthy still
completes with zero-length combined audio. -/
theorem missing_tts_key_degrades_to_empty_audio (env : Env) (t : PyStr)
    (m : VoicePipelineMetrics) (track : Bool) (video_id : Option PyStr)
    (cs : Nat) (tr : Transcript) (hk : env.elevenKey = false) :
    (synthesize_speech env t m track).1 = [] ∧
    (env.openaiKey = true → env.anthropicKey = true → env.stt = .ok tr →
      ∃ r, voice_pipeline_streaming env video_id cs = .ok r ∧
        r.audioSize = 0 ∧ r.fullAudio = []) := by
  have hsb : ∀ s, synthBytes env s = [] := fun s => by simp [synthBytes, hk]
  constructor
  · rw [synthesize_speech_fst]
    exact hsb t
  · intro ho ha hs
    have hflat : ((chunkAll cs env.increments).map (synthBytes env)).flatten
        = ([] : List Nat) := by
      apply List.flatten_eq_nil_iff.mpr
      intro l hl
      obtain ⟨c, -, rfl⟩ := List.mem_map.mp hl
      exact hsb c
    refine ⟨_, pipeline_ok_shape env video_id cs tr ho ha hs, ?_, ?_⟩
    · show (((chunkAll cs env.increments).map (synthBytes env)).flatten).length = 0
      rw [hflat]
      rfl
    · exact hflat

/-- C5 witness: the theorem instantiated on a concrete world with the
synthesis credential absent: empty bytes, and a successful run. -/
theorem missing_tts_key_degrades_to_empty_audio_witness :
    (synthesize_speech envC5w "abc".toList VoicePipelineMetrics.init true).1
        = [] ∧
    (voice_pipeline_streaming envC5w none 200).isOk = true := by
  have h := missing_tts_key_degrades_to_empty_audio envC5w "abc".toList
    VoicePipelineMetrics.init true none 200 trSample rfl
  refine ⟨h.1, ?_⟩
  obtain ⟨r, h1, -, -⟩ := h.2 rfl rfl rfl
  rw [h1]
  rfl

/-- C6 (confirmed): a synthesis provider error is chunk-scoped-recoverable:
`synthesize_speech` turns it into empty bytes for that chunk (never
propagating it), the synthesis outcome is consulted for every chunk of the
stream, and the final combined audio is the concatenation, in chunk order,
of each chunk's synthesis bytes — empty for the failing chunks, the
provider's bytes for the successful ones. -/
theorem synthesis_error_chunk_scoped_recovery (env : Env)
    (video_id : Option PyStr) (cs : Nat) (tr : Transcript)
    (ho : env.openaiKey = true) (ha : env.anthropicKey = true)
    (hs : env.stt = .ok tr) (hk : env.elevenKey = true) :
    (∀ t e, env.tts t = .error e → synthBytes env t = []) ∧
    (∀ t b, env.tts t = .ok b → synthBytes env t = b) ∧
    ∃ r, voice_pipeline_streaming env video_id cs = .ok r ∧
      r.fullAudio = ((chunkAll cs env.increments).map (synthBytes env)).flatten ∧
      r.audioSize = r.fullAudio.length := by
  refine ⟨?_, ?_, ?_⟩
  · intro t e he
    simp [synthBytes, hk, he]
  · intro t b hb
    simp [synthBytes, hk, hb]
  · exact ⟨_, pipeline_ok_shape env video_id cs tr ho ha hs, rfl, rfl⟩

/-- C6 witness: a concrete world where the provider raises on the first
chunk text and succeeds on the second: the run completes, the failing chunk
contributes empty bytes, the successful one its audio. -/
theorem synthesis_error_chunk_scoped_recovery_witness :
    (voice_pipeline_streaming envC6w none 200).isOk = true ∧
    synthBytes envC6w "A.".toList = [] ∧
    synthBytes envC6w "B.".toList = [5, 6] := by
  have h := synthesis_error_chunk_scoped_recovery envC6w none 200 trSample
    rfl rfl rfl rfl
  refine ⟨?_, ?_, ?_⟩
  · obtain ⟨r, h1, -, -⟩ := h.2.2
    rw [h1]
    rfl
  · exact h.1 "A.".toList 1 rfl
  · exact h.2.1 "B.".toList [5, 6] rfl

/-- C7 counterexample: with the transcription credential absent the pipeline
fails only after `stt_start` has been recorded (the transcription stage is
entered first); with the generation credential absent it fails only after
the transcription and retrieval stages ran to completion (their start and
end timestamps, and `llm_start`, are all recorded) — not at startup before
any stage. -/
theorem credential_check_after_stage_start_counterexample :
    (voice_pipeline_streaming envC7o none 200
        = .error (.valueErrorNoOpenAIKey,
            VoicePipelineMetrics.init.recordSttStart) ∧
      VoicePipelineMetrics.init.recordSttStart.sttStart ≠ 0) ∧
    (voice_pipeline_streaming envC7x none 200
        = .error (.valueErrorNoAnthropicKey, mAfterLlmStart) ∧
      mAfterLlmStart.sttEnd ≠ 0 ∧ mAfterLlmStart.ragEnd ≠ 0 ∧
      mAfterLlmStart.llmStart ≠ 0) := by
  refine ⟨⟨rfl, by decide⟩, rfl, by decide, by decide, by decide⟩

/-- C7 (amended): absence of the transcription credential raises a fatal
ValueError inside the transcription stage — after `stt_start` is recorded
and before the provider call (`stt_end` stays unset); absence of the
generation credential raises a fatal ValueError inside the generation stage,
after the transcription and retrieval stages completed (their timestamps and
`llm_start` recorded, the tts timestamps still unset).  Both errors
propagate to the caller as pipeline failure. -/
theorem missing_credential_fatal_inside_stage (env : Env)
    (video_id : Option PyStr) (cs : Nat) (tr : Transcript) :
    (env.openaiKey = false →
      voice_pipeline_streaming env video_id cs
        = .error (.valueErrorNoOpenAIKey,
            VoicePipelineMetrics.init.recordSttStart) ∧
      VoicePipelineMetrics.init.recordSttStart.sttStart ≠ 0 ∧
      VoicePipelineMetrics.init.recordSttStart.sttEnd = 0) ∧
    (env.openaiKey = true → env.anthropicKey = false → env.stt = .ok tr →
      voice_pipeline_streaming env video_id cs
        = .error (.valueErrorNoAnthropicKey, mAfterLlmStart) ∧
      mAfterLlmStart.sttStart ≠ 0 ∧ mAfterLlmStart.sttEnd ≠ 0 ∧
      mAfterLlmStart.ragStart ≠ 0 ∧ mAfterLlmStart.ragEnd ≠ 0 ∧
      mAfterLlmStart.llmStart ≠ 0 ∧ mAfterLlmStart.ttsStart = 0 ∧
      mAfterLlmStart.ttsEnd = 0) := by
  constructor
  · intro ho
    refine ⟨?_, by decide, by decide⟩
    simp [voice_pipeline_streaming, voice_pipeline_streaming_with,
      transcribe_audio, ho]
  · intro ho ha hs
    refine ⟨?_, by decide, by decide, by decide, by decide, by decide,
      by decide, by decide⟩
    simp [voice_pipeline_streaming, voice_pipeline_streaming_with,
      transcribe_audio_ok ho hs, ha, retrieve_context_snd, m3_concrete]

/-- C7 witness: the amended theorem applied to the two concrete worlds with
the transcription credential absent and the generation credential absent. -/
theorem missing_credential_fatal_inside_stage_witness :
    voice_pipeline_streaming envC7o none 200
        = .error (.valueErrorNoOpenAIKey,
            VoicePipelineMetrics.init.recordSttStart) ∧
    voice_pipeline_streaming envC7x none 200
        = .error (.valueErrorNoAnthropicKey, mAfterLlmStart) :=
  ⟨((missing_credential_fatal_inside_stage envC7o none 200 trSample).1 rfl).1,
    ((missing_credential_fatal_inside_stage envC7x none 200 trSample).2
      rfl rfl rfl).1⟩

/-- C8 counterexample: for the single increment `"Hi"` (no threshold
crossing, no terminator) the only synthesized chunk of the request is the
trailing flush, which is called without the metrics object: the run
synthesizes audio (3 bytes) yet neither `tts_start` nor `tts_end` is ever
recorded. -/
theorem tts_metrics_trailing_chunk_counterexample :
    voice_pipeline_streaming envC8x none 200
      = .ok { transcript := "hi".toList, response := "Hi".toList,
              audioSize := 3,
              report := (⟨1, 2, 3, 4, 5, 6, 7, 0, 0, 8⟩ :
                VoicePipelineMetrics).report,
              metricsState := ⟨1, 2, 3, 4, 5, 6, 7, 0, 0, 8⟩,
              context := "Context for query: 'hi' (video: all)".toList,
              fullAudio := [1, 2, 3] } ∧
    (3 : Nat) ≠ 0 ∧
    (⟨1, 2, 3, 4, 5, 6, 7, 0, 0, 8⟩ : VoicePipelineMetrics).ttsStart = 0 ∧
    (⟨1, 2, 3, 4, 5, 6, 7, 0, 0, 8⟩ : VoicePipelineMetrics).ttsEnd = 0 := by
  refine ⟨rfl, by decide, by decide, by decide⟩

/-- C8 (amended): `tts_start`/`tts_end` are recorded only around the first
chunk emitted inside the streaming loop, if any: (i) once a chunk has been
emitted, further loop iterations leave the metrics object unchanged;
(ii) the trailing flush synthesis call never touches the metrics object;
(iii) when the loop emits at least one chunk, the final metrics carry a
recorded `tts_start` (and `tts_end` when the synthesis credential is
present); (iv) when the loop emits none — a request whose only synthesized
chunk is the trailing flush, or one with no audio at all — no tts timestamp
is ever recorded. -/
theorem tts_metrics_first_loop_chunk_only (env : Env)
    (video_id : Option PyStr) (cs : Nat) (tr : Transcript)
    (ho : env.openaiKey = true) (ha : env.anthropicKey = true)
    (hs : env.stt = .ok tr) :
    (∀ (st : LoopState) (incs : List PyStr),
      st.audioChunks ≠ [] → st.firstToken = false →
      (List.foldl (streamLoopStep env cs) st incs).m = st.m) ∧
    (∀ t m, (synthesize_speech env t m false).2 = m) ∧
    ((chunkFold cs env.increments).chunks ≠ [] →
      ∃ r, voice_pipeline_streaming env video_id cs = .ok r ∧
        r.metricsState.ttsStart ≠ 0 ∧
        (env.elevenKey = true → r.metricsState.ttsEnd ≠ 0)) ∧
    ((chunkFold cs env.increments).chunks = [] →
      ∃ r, voice_pipeline_streaming env video_id cs = .ok r ∧
        r.metricsState.ttsStart = 0 ∧ r.metricsState.ttsEnd = 0) := by
  have hrel := streamFold_chunk_rel env cs env.increments
    { buffer := [], audioChunks := [], m := mAfterLlmStart, firstToken := true }
    { buffer := [], chunks := [] } rfl rfl
  have hfold : chunkFold cs env.increments
      = List.foldl (chunkStep cs) { buffer := [], chunks := [] } env.increments := rfl
  rw [← hfold] at hrel
  refine ⟨?_, ?_, ?_, ?_⟩
  · intro st incs h1 h2
    exact streamFold_metrics_frozen env cs incs st h1 h2
  · intro t m
    exact synthesize_speech_track_false env t m
  · intro hne
    refine ⟨_, pipeline_ok_shape env video_id cs tr ho ha hs, ?_, ?_⟩
    all_goals
      have hset := streamFold_tts_set env cs env.increments
        { buffer := [], audioChunks := [], m := mAfterLlmStart, firstToken := true }
        (by decide) (.inl rfl)
      rcases hset.2 with hz | hok
      · exfalso
        rw [hrel.2] at hz
        exact hne (List.map_eq_nil_iff.mp hz)
      · first
        | exact hok.1
        | exact hok.2
  · intro heq
    refine ⟨_, pipeline_ok_shape env video_id cs tr ho ha hs, ?_, ?_⟩
    all_goals
      have hzero : (List.foldl (streamLoopStep env cs)
          { buffer := [], audioChunks := [], m := mAfterLlmStart, firstToken := true }
          env.increments).audioChunks = [] := by
        rw [hrel.2, heq]
        rfl
      have hunset := streamFold_tts_unset env cs env.increments
        { buffer := [], audioChunks := [], m := mAfterLlmStart, firstToken := true }
        (fun _ => ⟨rfl, rfl⟩) hzero
    · exact hunset.1
    · exact hunset.2

/-- C8 witness: the amended theorem on a concrete world whose single
increment `"Hello."` ends with a terminator: the chunk is emitted inside the
loop, the run completes, and the trailing-flush call leaves a sample metrics
object untouched. -/
theorem tts_metrics_first_loop_chunk_only_witness :
    (synthesize_speech envC8w "x".toList mAfterLlmStart false).2
        = mAfterLlmStart ∧
    (voice_pipeline_streaming envC8w none 200).isOk = true := by
  have h := tts_metrics_first_loop_chunk_only envC8w none 200 trSample
    rfl rfl rfl
  refine ⟨h.2.1 "x".toList mAfterLlmStart, ?_⟩
  obtain ⟨r, h1, -, -⟩ := h.2.2.1 (by decide)
  rw [h1]
  rfl
